import Mathlib

/-!
# The mock client registry of `mock.go`

A shallow embedding of `src/mock.go` (Go package `client`): the per-test mock
set `mockedClient`, the registry `testClient`, the seven `Mock<Operation>`
configuration methods, the seven contract operations and the private helper
`currentMocks`.

Modelling decisions.

* A `*testing.T` is a pointer: `none` is the nil pointer, `some a` the pointer
  with address `a`.  Go compares map keys of pointer type by address.
* The Go map `map[*testing.T]*mockedClient` is a function from handles to
  `Option (mockedClient T)`; `none` is what the Go expression `m.mocks[t]`
  evaluates to `nil` on (key absent, or present with a nil pointer).  Every
  `&mockedClient{}` is stored under exactly one key, so no two keys alias and a
  write through the pointer returned by `currentMocks t` is a write to the
  entry of key `t`.
* The types `BatchPoints`, `Query`, `Response`, `ChunkedResponse` and
  `context.Context` are declared outside `mock.go`; the registry only passes
  their values through, so they are parameters (`ClientTypes`).
* A callback is a Go closure: it may read and write anything outside the
  registry.  It is modelled as a function of its arguments and of a `World`
  that it returns updated.  A callback cannot touch the registry itself: every
  public method holds the (non-reentrant) lock, so a callback that re-enters
  the registry never returns.  Callbacks are total here: one that panics or
  blocks is outside the model.
* The mutex is not modelled: every method body is one atomic state
  transformation, which is what holding the lock for the whole body provides.
* A dereference of a nil `*mockedClient` is a Go panic; it is the `none` result
  of the `Mock<Operation>` methods.
-/

namespace client

/-- Go `*testing.T`: `none` is the nil pointer, `some a` the pointer to address `a`. -/
abbrev Handle := Option Nat

/-- Go `time.Duration`, an `int64` count of nanoseconds; the registry does no
arithmetic on it. -/
abbrev Duration := Int

/-- Go `error` interface value: `none` is the nil error, `some msg` a non-nil error. -/
abbrev GoError := Option String

/-- The types the registry passes through without inspecting them, and the
`World` that callbacks may read and write. -/
structure ClientTypes where
  BatchPoints : Type
  Query : Type
  Response : Type
  ChunkedResponse : Type
  Context : Type
  World : Type

/-- A Go function body with a result of type `α`: it maps the world before the
call to its result and the world after it. -/
abbrev Eff (T : ClientTypes) (α : Type) := T.World → α × T.World

/-- Go `mockedClient` (mock.go 22-30): one optional callback per operation; a nil
func value is `none`.  A Go parameter list `(ctx, q)` is the pair `(ctx, q)`,
the empty parameter list is `Unit`.  All fields of `mockedClient{}` are nil. -/
structure mockedClient (T : ClientTypes) where
  pingMock : Option (Duration → Eff T (Duration × String × GoError)) := none
  writeMock : Option (T.BatchPoints → Eff T GoError) := none
  queryMock : Option (T.Query → Eff T (Option T.Response × GoError)) := none
  queryWithContextMock :
    Option (T.Context × T.Query → Eff T (Option T.Response × GoError)) := none
  queryAsChunkMock : Option (T.Query → Eff T (Option T.ChunkedResponse × GoError)) := none
  queryAsChunkWithContextMock :
    Option (T.Context × T.Query → Eff T (Option T.ChunkedResponse × GoError)) := none
  closeMock : Option (Unit → Eff T GoError) := none

/-- Go `testClient` (mock.go 32-36) without its lock. -/
structure testClient (T : ClientTypes) where
  mocks : Handle → Option (mockedClient T)
  currentTest : Handle

/-- What a contract operation leaves behind: its return value, the registry
and the world after the call. -/
structure Outcome (T : ClientTypes) (α : Type) where
  ret : α
  client : testClient T
  world : T.World

variable {T : ClientTypes}

/-- Go `NewTestClient` (mock.go 39-44): an empty map, and `currentTest` left at
its zero value, the nil pointer. -/
def NewTestClient : testClient T :=
  { mocks := fun _ => none, currentTest := none }

/-- Go `currentMocks` (mock.go 186-198).  Returns the pointer (`some` of the
mock set it points to; `none` would be nil) and the registry after the call. -/
def currentMocks (t : Handle) (m : testClient T) : Option (mockedClient T) × testClient T :=
  match m.mocks t with
  | some mocks => (some mocks, { m with currentTest := t })
  | none =>
    let mocks : mockedClient T := {}
    (some mocks, { mocks := Function.update m.mocks t (some mocks), currentTest := t })

/-- Go `MockPing` (mock.go 46-52): `m.currentMocks(t).pingMock = impl`. -/
def MockPing (t : Handle) (impl : Option (Duration → Eff T (Duration × String × GoError)))
    (m : testClient T) : Option (testClient T) :=
  match currentMocks t m with
  | (some mocks, m1) =>
    some { m1 with mocks := Function.update m1.mocks t (some { mocks with pingMock := impl }) }
  | (none, _) => none

/-- Go `MockWrite` (mock.go 54-60). -/
def MockWrite (t : Handle) (impl : Option (T.BatchPoints → Eff T GoError))
    (m : testClient T) : Option (testClient T) :=
  match currentMocks t m with
  | (some mocks, m1) =>
    some { m1 with mocks := Function.update m1.mocks t (some { mocks with writeMock := impl }) }
  | (none, _) => none

/-- Go `MockQuery` (mock.go 62-68). -/
def MockQuery (t : Handle) (impl : Option (T.Query → Eff T (Option T.Response × GoError)))
    (m : testClient T) : Option (testClient T) :=
  match currentMocks t m with
  | (some mocks, m1) =>
    some { m1 with mocks := Function.update m1.mocks t (some { mocks with queryMock := impl }) }
  | (none, _) => none

/-- Go `MockQueryWithContext` (mock.go 70-76). -/
def MockQueryWithContext (t : Handle)
    (impl : Option (T.Context × T.Query → Eff T (Option T.Response × GoError)))
    (m : testClient T) : Option (testClient T) :=
  match currentMocks t m with
  | (some mocks, m1) =>
    some { m1 with
      mocks := Function.update m1.mocks t (some { mocks with queryWithContextMock := impl }) }
  | (none, _) => none

/-- Go `MockQueryAsChunk` (mock.go 78-84). -/
def MockQueryAsChunk (t : Handle)
    (impl : Option (T.Query → Eff T (Option T.ChunkedResponse × GoError)))
    (m : testClient T) : Option (testClient T) :=
  match currentMocks t m with
  | (some mocks, m1) =>
    some { m1 with
      mocks := Function.update m1.mocks t (some { mocks with queryAsChunkMock := impl }) }
  | (none, _) => none

/-- Go `MockQueryAsChunkWithContext` (mock.go 86-92). -/
def MockQueryAsChunkWithContext (t : Handle)
    (impl : Option (T.Context × T.Query → Eff T (Option T.ChunkedResponse × GoError)))
    (m : testClient T) : Option (testClient T) :=
  match currentMocks t m with
  | (some mocks, m1) =>
    some { m1 with
      mocks := Function.update m1.mocks t
        (some { mocks with queryAsChunkWithContextMock := impl }) }
  | (none, _) => none

/-- Go `MockClose` (mock.go 94-100). -/
def MockClose (t : Handle) (impl : Option (Unit → Eff T GoError))
    (m : testClient T) : Option (testClient T) :=
  match currentMocks t m with
  | (some mocks, m1) =>
    some { m1 with mocks := Function.update m1.mocks t (some { mocks with closeMock := impl }) }
  | (none, _) => none

/-- Go `Ping` (mock.go 102-112). -/
def Ping (timeout : Duration) (m : testClient T) (w : T.World) :
    Outcome T (Duration × String × GoError) :=
  match currentMocks m.currentTest m with
  | (some mock, m1) =>
    match mock.pingMock with
    | some f => let r := f timeout w; ⟨r.1, m1, r.2⟩
    | none => ⟨(0, "", none), m1, w⟩
  | (none, m1) => ⟨(0, "", none), m1, w⟩

/-- Go `Write` (mock.go 114-124). -/
def Write (bp : T.BatchPoints) (m : testClient T) (w : T.World) : Outcome T GoError :=
  match currentMocks m.currentTest m with
  | (some mock, m1) =>
    match mock.writeMock with
    | some f => let r := f bp w; ⟨r.1, m1, r.2⟩
    | none => ⟨none, m1, w⟩
  | (none, m1) => ⟨none, m1, w⟩

/-- Go `Query` (mock.go 126-136). -/
def Query (q : T.Query) (m : testClient T) (w : T.World) :
    Outcome T (Option T.Response × GoError) :=
  match currentMocks m.currentTest m with
  | (some mock, m1) =>
    match mock.queryMock with
    | some f => let r := f q w; ⟨r.1, m1, r.2⟩
    | none => ⟨(none, none), m1, w⟩
  | (none, m1) => ⟨(none, none), m1, w⟩

/-- Go `QueryWithContext` (mock.go 138-148). -/
def QueryWithContext (ctx : T.Context) (q : T.Query) (m : testClient T) (w : T.World) :
    Outcome T (Option T.Response × GoError) :=
  match currentMocks m.currentTest m with
  | (some mock, m1) =>
    match mock.queryWithContextMock with
    | some f => let r := f (ctx, q) w; ⟨r.1, m1, r.2⟩
    | none => ⟨(none, none), m1, w⟩
  | (none, m1) => ⟨(none, none), m1, w⟩

/-- Go `QueryAsChunk` (mock.go 150-160). -/
def QueryAsChunk (q : T.Query) (m : testClient T) (w : T.World) :
    Outcome T (Option T.ChunkedResponse × GoError) :=
  match currentMocks m.currentTest m with
  | (some mock, m1) =>
    match mock.queryAsChunkMock with
    | some f => let r := f q w; ⟨r.1, m1, r.2⟩
    | none => ⟨(none, none), m1, w⟩
  | (none, m1) => ⟨(none, none), m1, w⟩

/-- Go `QueryAsChunkWithContext` (mock.go 162-172). -/
def QueryAsChunkWithContext (ctx : T.Context) (q : T.Query) (m : testClient T) (w : T.World) :
    Outcome T (Option T.ChunkedResponse × GoError) :=
  match currentMocks m.currentTest m with
  | (some mock, m1) =>
    match mock.queryAsChunkWithContextMock with
    | some f => let r := f (ctx, q) w; ⟨r.1, m1, r.2⟩
    | none => ⟨(none, none), m1, w⟩
  | (none, m1) => ⟨(none, none), m1, w⟩

/-- Go `Close` (mock.go 174-184). -/
def Close (m : testClient T) (w : T.World) : Outcome T GoError :=
  match currentMocks m.currentTest m with
  | (some mock, m1) =>
    match mock.closeMock with
    | some f => let r := f () w; ⟨r.1, m1, r.2⟩
    | none => ⟨none, m1, w⟩
  | (none, m1) => ⟨none, m1, w⟩

/-! ## The seven operations as one family

The claims speak of "every operation".  `Op` names the seven operations, and
`mock`, `call` and `slot` select the matching source method or field. -/

/-- The seven operations of the client contract. -/
inductive Op where
  | ping
  | write
  | query
  | queryWithContext
  | queryAsChunk
  | queryAsChunkWithContext
  | close
deriving DecidableEq, Repr

/-- The argument list of a contract operation. -/
@[reducible] def Op.Args (T : ClientTypes) : Op → Type
  | .ping => Duration
  | .write => T.BatchPoints
  | .query => T.Query
  | .queryWithContext => T.Context × T.Query
  | .queryAsChunk => T.Query
  | .queryAsChunkWithContext => T.Context × T.Query
  | .close => Unit

/-- The result list of a contract operation. -/
@[reducible] def Op.Res (T : ClientTypes) : Op → Type
  | .ping => Duration × String × GoError
  | .write => GoError
  | .query => Option T.Response × GoError
  | .queryWithContext => Option T.Response × GoError
  | .queryAsChunk => Option T.ChunkedResponse × GoError
  | .queryAsChunkWithContext => Option T.ChunkedResponse × GoError
  | .close => GoError

/-- The type of the callbacks of an operation. -/
abbrev Callback (T : ClientTypes) (op : Op) := Op.Args T op → Eff T (Op.Res T op)

/-- The field of `mockedClient` that belongs to an operation. -/
def slot : (op : Op) → mockedClient T → Option (Callback T op)
  | .ping, mc => mc.pingMock
  | .write, mc => mc.writeMock
  | .query, mc => mc.queryMock
  | .queryWithContext, mc => mc.queryWithContextMock
  | .queryAsChunk, mc => mc.queryAsChunkMock
  | .queryAsChunkWithContext, mc => mc.queryAsChunkWithContextMock
  | .close, mc => mc.closeMock

/-- The configuration method `Mock<Operation>` of an operation. -/
def mock : (op : Op) → Handle → Option (Callback T op) → testClient T → Option (testClient T)
  | .ping, t, impl, m => MockPing t impl m
  | .write, t, impl, m => MockWrite t impl m
  | .query, t, impl, m => MockQuery t impl m
  | .queryWithContext, t, impl, m => MockQueryWithContext t impl m
  | .queryAsChunk, t, impl, m => MockQueryAsChunk t impl m
  | .queryAsChunkWithContext, t, impl, m => MockQueryAsChunkWithContext t impl m
  | .close, t, impl, m => MockClose t impl m

/-- The contract method of an operation. -/
def call : (op : Op) → Op.Args T op → testClient T → T.World → Outcome T (Op.Res T op)
  | .ping, a, m, w => Ping a m w
  | .write, a, m, w => Write a m w
  | .query, a, m, w => Query a m w
  | .queryWithContext, a, m, w => QueryWithContext a.1 a.2 m w
  | .queryAsChunk, a, m, w => QueryAsChunk a m w
  | .queryAsChunkWithContext, a, m, w => QueryAsChunkWithContext a.1 a.2 m w
  | .close, _, m, w => Close m w

/-- The error component of the result of an operation (always the last result). -/
def errOf : (op : Op) → Op.Res T op → GoError
  | .ping, r => r.2.2
  | .write, r => r
  | .query, r => r.2
  | .queryWithContext, r => r.2
  | .queryAsChunk, r => r.2
  | .queryAsChunkWithContext, r => r.2
  | .close, r => r

/-- The default that the claims state for each operation: zero duration,
empty status and no error for `Ping`; no error for `Write` and `Close`; a null
response and no error for the four query operations. -/
def zeroValue : (op : Op) → Op.Res T op
  | .ping => ((0 : Int), "", none)
  | .write => none
  | .query => (none, none)
  | .queryWithContext => (none, none)
  | .queryAsChunk => (none, none)
  | .queryAsChunkWithContext => (none, none)
  | .close => none

/-- The callback that the slot of `op` holds under the active handle
(`currentTest`); `none` when the slot is empty or the handle has no mock set. -/
def activeSlot (op : Op) (m : testClient T) : Option (Callback T op) :=
  (m.mocks m.currentTest).bind (slot op)

/-- One call of a public method of the registry. -/
inductive Action (T : ClientTypes) where
  | configure (op : Op) (t : Handle) (impl : Option (Callback T op))
  | invoke (op : Op) (args : Op.Args T op)

/-- Performs one public method call on a registry and a world; `none` is a panic. -/
def Action.apply : Action T → testClient T × T.World → Option (testClient T × T.World)
  | .configure op t impl, s => (mock op t impl s.1).map (fun m1 => (m1, s.2))
  | .invoke op a, s => some ((call op a s.1 s.2).client, (call op a s.1 s.2).world)

/-- Performs a sequence of public method calls, first to last. -/
def run : List (Action T) → testClient T × T.World → Option (testClient T × T.World)
  | [], s => some s
  | a :: rest, s => (a.apply s).bind (run rest)

/-- The mock set with the slot of `op` replaced by `impl`, the other six kept. -/
def setSlot : (op : Op) → Option (Callback T op) → mockedClient T → mockedClient T
  | .ping, impl, mc => { mc with pingMock := impl }
  | .write, impl, mc => { mc with writeMock := impl }
  | .query, impl, mc => { mc with queryMock := impl }
  | .queryWithContext, impl, mc => { mc with queryWithContextMock := impl }
  | .queryAsChunk, impl, mc => { mc with queryAsChunkMock := impl }
  | .queryAsChunkWithContext, impl, mc => { mc with queryAsChunkWithContextMock := impl }
  | .close, impl, mc => { mc with closeMock := impl }

/-- The mock set that `currentMocks t` points to: the stored one, or a fresh
empty one when `m.mocks[t]` is nil. -/
def mockSetOf (t : Handle) (m : testClient T) : mockedClient T :=
  (m.mocks t).getD {}

/-- One configuration call `Mock<Op>(handle, impl)`. -/
structure Registration (T : ClientTypes) where
  op : Op
  handle : Handle
  impl : Option (Callback T op)

/-- The configuration call as a public method call. -/
def Registration.toAction (r : Registration T) : Action T :=
  Action.configure r.op r.handle r.impl

/-- What the configuration call registers for operation `op` under handle `H`:
`none` when it is not a `Mock<op>(H, ·)` call, `some impl` when it is
`Mock<op>(H, impl)` (where `impl` may be the nil callback). -/
def Registration.registers (op : Op) (H : Handle) (r : Registration T) :
    Option (Option (Callback T op)) :=
  if h : r.handle = H ∧ r.op = op then some (h.2 ▸ r.impl) else none

/-- Trace characterisation, first part: the handle of the last configuration
call of the sequence, the nil handle when the sequence is empty. -/
def lastHandle (regs : List (Registration T)) : Handle :=
  match regs.getLast? with
  | some r => r.handle
  | none => none

/-- Trace characterisation, second part: what the last `Mock<op>(H, ·)` call of
the sequence registered; `none` when the sequence has no such call. -/
def lastRegistered (op : Op) (H : Handle) :
    List (Registration T) → Option (Option (Callback T op))
  | [] => none
  | r :: rest =>
    match lastRegistered op H rest with
    | some impl => some impl
    | none => r.registers op H

/-- Trace characterisation, the result: with `H` the handle of the last
configuration call, the result of `fn` on the arguments when the last
`Mock<op>(H, ·)` call registered a non-nil `fn`, and otherwise the default of
the operation with the world untouched. -/
def traceResult (regs : List (Registration T)) (op : Op) (a : Op.Args T op) (w : T.World) :
    Op.Res T op × T.World :=
  match lastRegistered op (lastHandle regs) regs with
  | some (some fn) => fn a w
  | _ => (zeroValue op, w)

/-- Concrete pass-through types for evaluating the model: strings for the
values, a log of strings for the world. -/
def stringTypes : ClientTypes :=
  { BatchPoints := String, Query := String, Response := String,
    ChunkedResponse := String, Context := String, World := List String }

/-- A `Ping` callback: echoes the timeout with status "one" and logs "f". -/
def pingOne : Callback stringTypes Op.ping :=
  fun d v => ((d, "one", none), "f" :: v)

/-- A `Ping` callback: echoes the timeout with status "two" and logs "g". -/
def pingTwo : Callback stringTypes Op.ping :=
  fun d v => ((d, "two", none), "g" :: v)

/-- A `Close` callback: fails with "closed" and logs "c". -/
def closeFails : Callback stringTypes Op.close :=
  fun _ v => (some "closed", "c" :: v)

/-- A registry in which handle 2 is active and holds `pingTwo` in its `Ping` slot. -/
def registryOfTwo : testClient stringTypes :=
  { mocks := Function.update (fun _ => none) (some 2) (some { pingMock := some pingTwo }),
    currentTest := some 2 }

/-! ## Closed forms of the methods -/

theorem currentMocks_eq (t : Handle) (m : testClient T) :
    currentMocks t m =
      (some (mockSetOf t m),
        { mocks := Function.update m.mocks t (some (mockSetOf t m)), currentTest := t }) := by
  unfold currentMocks mockSetOf
  cases h : m.mocks t with
  | none => simp
  | some mc =>
    have hu : Function.update m.mocks t (some mc) = m.mocks := by
      rw [← h]; exact Function.update_eq_self t m.mocks
    simp [hu]

theorem mock_eq (op : Op) (t : Handle) (impl : Option (Callback T op)) (m : testClient T) :
    mock op t impl m =
      some { mocks := Function.update m.mocks t (some (setSlot op impl (mockSetOf t m))),
             currentTest := t } := by
  cases op <;>
    simp [mock, MockPing, MockWrite, MockQuery, MockQueryWithContext, MockQueryAsChunk,
      MockQueryAsChunkWithContext, MockClose, currentMocks_eq, setSlot]

theorem slot_mockSetOf (op : Op) (m : testClient T) :
    slot op (mockSetOf m.currentTest m) = activeSlot op m := by
  unfold mockSetOf activeSlot
  cases m.mocks m.currentTest <;> cases op <;> simp [slot]

theorem call_eq (op : Op) (a : Op.Args T op) (m : testClient T) (w : T.World) :
    call op a m w =
      match activeSlot op m with
      | some f => ⟨(f a w).1, (currentMocks m.currentTest m).2, (f a w).2⟩
      | none => ⟨zeroValue op, (currentMocks m.currentTest m).2, w⟩ := by
  rw [← slot_mockSetOf]
  cases op <;>
    simp only [call, Ping, Write, Query, QueryWithContext, QueryAsChunk,
      QueryAsChunkWithContext, Close, currentMocks_eq, slot, zeroValue] <;>
    split <;> simp_all

theorem slot_setSlot_same (op : Op) (impl : Option (Callback T op)) (mc : mockedClient T) :
    slot op (setSlot op impl mc) = impl := by
  cases op <;> rfl

theorem slot_setSlot_ne {op op' : Op} (h : op' ≠ op) (impl : Option (Callback T op))
    (mc : mockedClient T) : slot op' (setSlot op impl mc) = slot op' mc := by
  cases op <;> cases op' <;> first | rfl | exact absurd rfl h

theorem setSlot_setSlot (op : Op) (f1 f2 : Option (Callback T op)) (mc : mockedClient T) :
    setSlot op f2 (setSlot op f1 mc) = setSlot op f2 mc := by
  cases op <;> rfl

theorem slot_empty (op : Op) : slot op ({} : mockedClient T) = none := by
  cases op <;> rfl

theorem mockSetOf_update_same (t : Handle) (f : Handle → Option (mockedClient T))
    (mc : mockedClient T) (c : Handle) :
    mockSetOf t { mocks := Function.update f t (some mc), currentTest := c } = mc := by
  simp [mockSetOf]

theorem activeSlot_update_same (op : Op) (t : Handle) (f : Handle → Option (mockedClient T))
    (mc : mockedClient T) :
    activeSlot op { mocks := Function.update f t (some mc), currentTest := t } = slot op mc := by
  simp [activeSlot]

theorem call_of_activeSlot_some {op : Op} {m : testClient T} {f : Callback T op}
    (h : activeSlot op m = some f) (a : Op.Args T op) (w : T.World) :
    (call op a m w).ret = (f a w).1 ∧ (call op a m w).world = (f a w).2 := by
  rw [call_eq, h]; exact ⟨rfl, rfl⟩

theorem errOf_zeroValue (op : Op) : errOf op (zeroValue op : Op.Res T op) = none := by
  cases op <;> rfl

theorem call_of_activeSlot_none {op : Op} {m : testClient T}
    (h : activeSlot op m = none) (a : Op.Args T op) (w : T.World) :
    (call op a m w).ret = zeroValue op ∧ (call op a m w).world = w := by
  rw [call_eq, h]; exact ⟨rfl, rfl⟩

theorem call_client (op : Op) (a : Op.Args T op) (m : testClient T) (w : T.World) :
    (call op a m w).client = (currentMocks m.currentTest m).2 := by
  rw [call_eq]; split <;> rfl

theorem isSome_update_of_isSome (f : Handle → Option (mockedClient T)) (t H : Handle)
    (mc : mockedClient T) (h : (f H).isSome = true) :
    (Function.update f t (some mc) H).isSome = true := by
  by_cases e : H = t
  · subst e; simp
  · rw [Function.update_noteq e]; exact h

theorem mock_keeps_mock_sets (op : Op) (t : Handle) (impl : Option (Callback T op))
    (m : testClient T) (H : Handle) (h : (m.mocks H).isSome = true) :
    ∃ m1, mock op t impl m = some m1 ∧ (m1.mocks H).isSome = true :=
  ⟨_, mock_eq op t impl m, isSome_update_of_isSome _ _ _ _ h⟩

theorem call_keeps_mock_sets (op : Op) (a : Op.Args T op) (m : testClient T) (w : T.World)
    (H : Handle) (h : (m.mocks H).isSome = true) :
    ((call op a m w).client.mocks H).isSome = true := by
  rw [call_client, currentMocks_eq]
  exact isSome_update_of_isSome _ _ _ _ h

theorem run_keeps_mock_sets (acts : List (Action T)) (H : Handle) :
    ∀ s : testClient T × T.World, (s.1.mocks H).isSome = true →
      ∃ s1, run acts s = some s1 ∧ (s1.1.mocks H).isSome = true := by
  induction acts with
  | nil => intro s h; exact ⟨s, rfl, h⟩
  | cons act rest ih =>
    intro s h
    cases act with
    | configure op t impl =>
      obtain ⟨m1, e, h1⟩ := mock_keeps_mock_sets op t impl s.1 H h
      obtain ⟨s1, e1, h2⟩ := ih (m1, s.2) h1
      exact ⟨s1, by simp [run, Action.apply, e, e1], h2⟩
    | invoke op a =>
      obtain ⟨s1, e1, h2⟩ :=
        ih ((call op a s.1 s.2).client, (call op a s.1 s.2).world)
          (call_keeps_mock_sets op a s.1 s.2 H h)
      exact ⟨s1, by simp [run, Action.apply, e1], h2⟩

/-! ## The claims -/

/-- C1: for every registry state, handle, operation and non-null callback `fn`,
`Mock<Op>(H, fn)` succeeds and the next call of the same operation returns
exactly what `fn` returns on the arguments of the caller (for the two context
variants the pair of context and query), error included, and leaves the world
as `fn` leaves it: `fn` is invoked once, on those arguments.  The two scenarios
of the claim follow: a `Ping` callback returning `(3s, "ok", nil)` and a `Query`
callback returning `(nil, error "boom")`. -/
theorem C1_mocked_operation_returns_callback_result (op : Op) (H : Handle)
    (fn : Callback T op) (m : testClient T) (a : Op.Args T op) (w : T.World) :
    (∃ m1, mock op H (some fn) m = some m1 ∧
      (call op a m1 w).ret = (fn a w).1 ∧ (call op a m1 w).world = (fn a w).2) ∧
    (∀ timeout : Duration,
      (MockPing H (some (fun _ v => ((3000000000, "ok", none), v))) m).map
        (fun m1 => (Ping timeout m1 w).ret) = some (3000000000, "ok", none)) ∧
    (∀ q : T.Query,
      (MockQuery H (some (fun _ v => ((none, some "boom"), v))) m).map
        (fun m1 => (Query q m1 w).ret) = some (none, some "boom")) := by
  have key : ∀ (o : Op) (g : Callback T o) (b : Op.Args T o),
      ∃ m1, mock o H (some g) m = some m1 ∧
        (call o b m1 w).ret = (g b w).1 ∧ (call o b m1 w).world = (g b w).2 := by
    intro o g b
    refine ⟨_, mock_eq o H (some g) m, ?_⟩
    apply call_of_activeSlot_some
    rw [activeSlot_update_same, slot_setSlot_same]
  refine ⟨key op fn a, ?_, ?_⟩
  · intro timeout
    obtain ⟨m1, h1, h2, _⟩ := key Op.ping (fun _ v => ((3000000000, "ok", none), v)) timeout
    simp only [mock] at h1
    simp only [call] at h2
    rw [h1]; simp [h2]
  · intro q
    obtain ⟨m1, h1, h2, _⟩ := key Op.query (fun _ v => ((none, some "boom"), v)) q
    simp only [mock] at h1
    simp only [call] at h2
    rw [h1]; simp [h2]

/-- C2: in every registry state in which the slot of the operation under the
active handle holds no callback, the operation returns its documented default,
whose error is nil, and invokes nothing (the world is unchanged); the fresh
registry of `NewTestClient` is such a state for every operation. -/
theorem C2_unmocked_operation_returns_default (op : Op) (m : testClient T)
    (a : Op.Args T op) (w : T.World) (h : activeSlot op m = none) :
    ((call op a m w).ret = zeroValue op ∧ errOf op (call op a m w).ret = none ∧
      (call op a m w).world = w) ∧
    ((call op a NewTestClient w).ret = zeroValue op ∧
      errOf op (call op a NewTestClient w).ret = none ∧
      (call op a NewTestClient w).world = w) := by
  have key : ∀ m0 : testClient T, activeSlot op m0 = none →
      (call op a m0 w).ret = zeroValue op ∧ errOf op (call op a m0 w).ret = none ∧
        (call op a m0 w).world = w := by
    intro m0 h0
    obtain ⟨h1, h2⟩ := call_of_activeSlot_none h0 a w
    exact ⟨h1, by rw [h1, errOf_zeroValue], h2⟩
  exact ⟨key m h, key NewTestClient rfl⟩

/-- Witness of C2: handle 2 of `registryOfTwo` has a `Ping` callback and no
`Close` callback, and `Close()` returns nil without logging anything. -/
theorem C2_unmocked_operation_returns_default_witness :
    activeSlot Op.close registryOfTwo = none ∧
      (((call Op.close () registryOfTwo []).ret = none ∧
        errOf Op.close (call Op.close () registryOfTwo []).ret = none ∧
        (call Op.close () registryOfTwo []).world = []) ∧
      ((call Op.close () (NewTestClient : testClient stringTypes) []).ret = none ∧
        errOf Op.close (call Op.close () (NewTestClient : testClient stringTypes) []).ret = none ∧
        (call Op.close () (NewTestClient : testClient stringTypes) []).world = [])) :=
  ⟨by simp [activeSlot, registryOfTwo, slot],
    C2_unmocked_operation_returns_default Op.close registryOfTwo () []
      (by simp [activeSlot, registryOfTwo, slot])⟩

/-- C3: for handles `H1 ≠ H2`, `Mock<Op>(H1, fn)` succeeds and leaves the entry
of `H2` in the map as it was (the same mock set, or still none), so each of the
seven slots of `H2` holds what it held before. -/
theorem C3_mock_leaves_other_handles_unchanged (op : Op) (H1 H2 : Handle)
    (fn : Option (Callback T op)) (m : testClient T) (h : H1 ≠ H2) :
    ∃ m1, mock op H1 fn m = some m1 ∧ m1.mocks H2 = m.mocks H2 ∧
      ∀ op2 : Op, (m1.mocks H2).bind (slot op2) = (m.mocks H2).bind (slot op2) := by
  refine ⟨_, mock_eq op H1 fn m, ?_⟩
  have e : Function.update m.mocks H1 (some (setSlot op fn (mockSetOf H1 m))) H2 = m.mocks H2 :=
    Function.update_noteq (Ne.symm h) _ _
  exact ⟨e, fun op2 => by simp only [e]⟩

/-- Witness of C3: registering a `Close` callback under handle 1 leaves the
mock set of handle 2 in `registryOfTwo` in place. -/
theorem C3_mock_leaves_other_handles_unchanged_witness :
    (some 1 : Handle) ≠ some 2 ∧
      ∃ m1, mock Op.close (some 1) (some closeFails) registryOfTwo = some m1 ∧
        m1.mocks (some 2) = registryOfTwo.mocks (some 2) ∧
        ∀ op2 : Op, (m1.mocks (some 2)).bind (slot op2) =
          (registryOfTwo.mocks (some 2)).bind (slot op2) :=
  ⟨by decide,
    C3_mock_leaves_other_handles_unchanged Op.close (some 1) (some 2) (some closeFails)
      registryOfTwo (by decide)⟩

/-- C4: last registration wins.  The registry after `Mock<Op>(H, fn1)` followed
by `Mock<Op>(H, fn2)` equals the registry after `Mock<Op>(H, fn2)` alone;
a following call of the operation returns the result of a non-null `fn2` and
leaves the world as `fn2` leaves it, whatever `fn1` is; registering the same
callback twice equals registering it once. -/
theorem C4_last_registration_wins (op : Op) (H : Handle) (fn1 : Option (Callback T op))
    (m : testClient T) :
    (∀ fn2 : Option (Callback T op),
      (mock op H fn1 m).bind (mock op H fn2) = mock op H fn2 m) ∧
    (∀ (g : Callback T op) (a : Op.Args T op) (w : T.World),
      ∃ m2, (mock op H fn1 m).bind (mock op H (some g)) = some m2 ∧
        (call op a m2 w).ret = (g a w).1 ∧ (call op a m2 w).world = (g a w).2) ∧
    (mock op H fn1 m).bind (mock op H fn1) = mock op H fn1 m := by
  have key : ∀ fn2 : Option (Callback T op),
      (mock op H fn1 m).bind (mock op H fn2) = mock op H fn2 m := by
    intro fn2
    rw [mock_eq op H fn1 m, Option.some_bind, mock_eq, mock_eq, mockSetOf_update_same,
      setSlot_setSlot, Function.update_idem]
  refine ⟨key, ?_, key fn1⟩
  intro g a w
  rw [key (some g)]
  refine ⟨_, mock_eq op H (some g) m, ?_⟩
  apply call_of_activeSlot_some
  rw [activeSlot_update_same, slot_setSlot_same]

/-- C5: starting from a fresh registry, for handles `H1 ≠ H2` and operations
`Op2 ≠ Op`, after a registration for `Op` under `H1` followed by one under `H2`
the active handle is `H2` and a call of `Op` is served from the mock set of
`H2`: when the second registration was a non-null `g` for `Op` itself the call
returns the result of `g`, and when it was for `Op2` the call returns the
default of `Op` and leaves the world untouched.  In neither case does the
callback `f` of `H1` contribute to the result or to the world. -/
theorem C5_last_touched_handle_serves_dispatch (op op2 : Op) (H1 H2 : Handle)
    (f : Option (Callback T op)) (g : Callback T op) (g2 : Option (Callback T op2))
    (a : Op.Args T op) (w : T.World) (hH : H1 ≠ H2) (hop : op2 ≠ op) :
    (∃ m2, (mock op H1 f NewTestClient).bind (mock op H2 (some g)) = some m2 ∧
      m2.currentTest = H2 ∧
      (call op a m2 w).ret = (g a w).1 ∧ (call op a m2 w).world = (g a w).2) ∧
    (∃ m2, (mock op H1 f NewTestClient).bind (mock op2 H2 g2) = some m2 ∧
      m2.currentTest = H2 ∧
      (call op a m2 w).ret = zeroValue op ∧ (call op a m2 w).world = w) := by
  constructor
  · rw [mock_eq op H1 f, Option.some_bind]
    refine ⟨_, mock_eq op H2 (some g) _, rfl, ?_⟩
    apply call_of_activeSlot_some
    rw [activeSlot_update_same, slot_setSlot_same]
  · rw [mock_eq op H1 f, Option.some_bind]
    refine ⟨_, mock_eq op2 H2 g2 _, rfl, ?_⟩
    apply call_of_activeSlot_none
    rw [activeSlot_update_same, slot_setSlot_ne (Ne.symm hop)]
    simp [mockSetOf, NewTestClient, Function.update_noteq (Ne.symm hH), slot_empty]

/-- Witness of C5: handle 1 registers `pingOne`, then handle 2 registers
either `pingTwo` or the `Close` callback `closeFails`; `Ping(7)` then returns
`(7, "two", nil)` logging only "g", or the default logging nothing. -/
theorem C5_last_touched_handle_serves_dispatch_witness :
    ((some 1 : Handle) ≠ some 2 ∧ Op.close ≠ Op.ping) ∧
    ((∃ m2 : testClient stringTypes,
      (mock Op.ping (some 1) (some pingOne) NewTestClient).bind
        (mock Op.ping (some 2) (some pingTwo)) = some m2 ∧
      m2.currentTest = some 2 ∧
      (call Op.ping (7 : Int) m2 []).ret = ((7 : Int), "two", none) ∧
      (call Op.ping (7 : Int) m2 []).world = ["g"]) ∧
    (∃ m2 : testClient stringTypes,
      (mock Op.ping (some 1) (some pingOne) NewTestClient).bind
        (mock Op.close (some 2) (some closeFails)) = some m2 ∧
      m2.currentTest = some 2 ∧
      (call Op.ping (7 : Int) m2 []).ret = ((0 : Int), "", none) ∧
      (call Op.ping (7 : Int) m2 []).world = [])) :=
  ⟨⟨by decide, by decide⟩,
    C5_last_touched_handle_serves_dispatch Op.ping Op.close (some 1) (some 2)
      (some pingOne) pingTwo (some closeFails) (7 : Int) [] (by decide) (by decide)⟩

/-- C6: `Mock<Op>(H, fn)` changes only the slot of `Op` in the mock set of
`H`: every other slot `Op2 ≠ Op` of `H` holds after the call what it held
before (the same callback, or still nothing when it was empty or `H` had no
mock set), whether or not `H` already had a mock set. -/
theorem C6_mock_changes_only_its_slot (op op2 : Op) (H : Handle)
    (fn : Option (Callback T op)) (m : testClient T) (h : op2 ≠ op) :
    ∃ m1, mock op H fn m = some m1 ∧
      (m1.mocks H).bind (slot op2) = (m.mocks H).bind (slot op2) := by
  refine ⟨_, mock_eq op H fn m, ?_⟩
  simp only [Function.update_same, Option.some_bind, slot_setSlot_ne h]
  unfold mockSetOf
  cases m.mocks H <;> simp [slot_empty]

/-- Witness of C6: registering a `Close` callback under handle 2 of
`registryOfTwo` keeps the `Ping` slot of handle 2. -/
theorem C6_mock_changes_only_its_slot_witness :
    Op.ping ≠ Op.close ∧
      ∃ m1, mock Op.close (some 2) (some closeFails) registryOfTwo = some m1 ∧
        (m1.mocks (some 2)).bind (slot Op.ping) =
          (registryOfTwo.mocks (some 2)).bind (slot Op.ping) :=
  ⟨by decide,
    C6_mock_changes_only_its_slot Op.close Op.ping (some 2) (some closeFails) registryOfTwo
      (by decide)⟩

/-- C7: registering a null callback means "return defaults".  After
`Mock<Op>(H, nil)`, also when it follows the registration of a non-null
callback `f` for the same handle and operation, the next call of `Op` returns
the default of the operation, whose error is nil, and leaves the world
untouched: no callback is invoked. -/
theorem C7_null_callback_returns_default (op : Op) (H : Handle) (m : testClient T)
    (a : Op.Args T op) (w : T.World) :
    (∃ m1, mock op H none m = some m1 ∧
      (call op a m1 w).ret = zeroValue op ∧ errOf op (call op a m1 w).ret = none ∧
      (call op a m1 w).world = w) ∧
    (∀ f : Callback T op,
      ∃ m2, (mock op H (some f) m).bind (mock op H none) = some m2 ∧
        (call op a m2 w).ret = zeroValue op ∧ errOf op (call op a m2 w).ret = none ∧
        (call op a m2 w).world = w) := by
  have key : ∀ m0 : testClient T, ∃ m1, mock op H none m0 = some m1 ∧
      (call op a m1 w).ret = zeroValue op ∧ errOf op (call op a m1 w).ret = none ∧
      (call op a m1 w).world = w := by
    intro m0
    refine ⟨_, mock_eq op H none m0, ?_⟩
    have hs : activeSlot op
        { mocks := Function.update m0.mocks H (some (setSlot op none (mockSetOf H m0))),
          currentTest := H } = none := by
      rw [activeSlot_update_same, slot_setSlot_same]
    obtain ⟨h1, h2⟩ := call_of_activeSlot_none hs a w
    exact ⟨h1, by rw [h1, errOf_zeroValue], h2⟩
  refine ⟨key m, ?_⟩
  intro f
  rw [mock_eq op H (some f) m, Option.some_bind]
  exact key _

/-- C8: the registry never originates an error.  A contract operation returns
the non-nil error `e` exactly when the slot of the operation under the active
handle holds a callback and that callback, applied to the arguments of the
caller, returns the error `e`. -/
theorem C8_errors_come_only_from_callbacks (op : Op) (m : testClient T) (a : Op.Args T op)
    (w : T.World) (e : String) :
    errOf op (call op a m w).ret = some e ↔
      ∃ fn, activeSlot op m = some fn ∧ errOf op (fn a w).1 = some e := by
  cases h : activeSlot op m with
  | none =>
    rw [(call_of_activeSlot_none h a w).1, errOf_zeroValue]
    simp
  | some f =>
    rw [(call_of_activeSlot_some h a w).1]
    simp

/-- C9: after `Mock<Op>(H, fn)`, with `fn` null or not, the active-test marker
is `H` and the map holds a mock set for `H`. -/
theorem C9_mock_activates_handle (op : Op) (H : Handle) (fn : Option (Callback T op))
    (m : testClient T) :
    ∃ m1, mock op H fn m = some m1 ∧ m1.currentTest = H ∧ (m1.mocks H).isSome = true := by
  refine ⟨_, mock_eq op H fn m, rfl, ?_⟩
  simp

/-- C10: mock sets are never destroyed.  A handle `H` that has a mock set keeps
one through each of the seven `Mock<Op>` calls, through each of the seven
contract operations, and hence through every finite sequence of public method
calls (each of which succeeds); the map holds one entry per handle. -/
theorem C10_mock_sets_never_destroyed (m : testClient T) (w : T.World) (H : Handle)
    (h : (m.mocks H).isSome = true) :
    (∀ (op : Op) (t : Handle) (impl : Option (Callback T op)),
      ∃ m1, mock op t impl m = some m1 ∧ (m1.mocks H).isSome = true) ∧
    (∀ (op : Op) (a : Op.Args T op), ((call op a m w).client.mocks H).isSome = true) ∧
    (∀ acts : List (Action T),
      ∃ m1 w1, run acts (m, w) = some (m1, w1) ∧ (m1.mocks H).isSome = true) := by
  refine ⟨fun op t impl => mock_keeps_mock_sets op t impl m H h,
    fun op a => call_keeps_mock_sets op a m w H h, ?_⟩
  intro acts
  obtain ⟨s1, e, h1⟩ := run_keeps_mock_sets acts H (m, w) h
  exact ⟨s1.1, s1.2, e, h1⟩

/-- Witness of C10: handle 2 of `registryOfTwo` keeps its mock set. -/
theorem C10_mock_sets_never_destroyed_witness :
    (registryOfTwo.mocks (some 2)).isSome = true ∧
    ((∀ (op : Op) (t : Handle) (impl : Option (Callback stringTypes op)),
      ∃ m1, mock op t impl registryOfTwo = some m1 ∧ (m1.mocks (some 2)).isSome = true) ∧
    (∀ (op : Op) (a : Op.Args stringTypes op),
      ((call op a registryOfTwo []).client.mocks (some 2)).isSome = true) ∧
    (∀ acts : List (Action stringTypes),
      ∃ m1 w1, run acts (registryOfTwo, []) = some (m1, w1) ∧
        (m1.mocks (some 2)).isSome = true)) :=
  ⟨by simp [registryOfTwo], C10_mock_sets_never_destroyed registryOfTwo [] (some 2)
    (by simp [registryOfTwo])⟩

/-- C14: dispatch does not reconfigure the registry.  A contract operation
(its callback being a function of arguments and world only) leaves the
active-test marker as it was and leaves every existing mock set as it was; the
one possible change to the map is a new empty mock set (`mockedClient{}`, all
seven slots nil) under the active handle when it had none, which on a fresh
registry is the nil handle.  Hence every slot under the active handle holds
after the call what it held before, and a second call of the operation returns
what it would have returned on the registry before the first call: a callback
is not consumed. -/
theorem C14_dispatch_does_not_reconfigure (op : Op) (a : Op.Args T op) (m : testClient T)
    (w : T.World) :
    (call op a m w).client.currentTest = m.currentTest ∧
    (∀ H : Handle, (call op a m w).client.mocks H =
      match m.mocks H with
      | some mc => some mc
      | none => if H = m.currentTest then some {} else none) ∧
    (∀ H : Handle, (call op a NewTestClient w).client.mocks H =
      if H = none then some {} else none) ∧
    (∀ op2 : Op, activeSlot op2 (call op a m w).client = activeSlot op2 m) ∧
    (∀ (a2 : Op.Args T op) (w2 : T.World),
      (call op a2 (call op a m w).client w2).ret = (call op a2 m w2).ret ∧
      (call op a2 (call op a m w).client w2).world = (call op a2 m w2).world) := by
  have hmap : ∀ (m0 : testClient T) (H : Handle), (call op a m0 w).client.mocks H =
      match m0.mocks H with
      | some mc => some mc
      | none => if H = m0.currentTest then some {} else none := by
    intro m0 H
    rw [call_client, currentMocks_eq]
    by_cases e : H = m0.currentTest
    · subst e
      simp only [Function.update_same, mockSetOf]
      cases m0.mocks m0.currentTest <;> simp
    · simp only [Function.update_noteq e]
      cases m0.mocks H <;> simp [e]
  have hcur : (call op a m w).client.currentTest = m.currentTest := by
    rw [call_client, currentMocks_eq]
  have hslot : ∀ op2 : Op, activeSlot op2 (call op a m w).client = activeSlot op2 m := by
    intro op2
    unfold activeSlot
    rw [hcur, hmap m m.currentTest]
    cases m.mocks m.currentTest <;> simp [slot_empty]
  refine ⟨hcur, hmap m, ?_, hslot, ?_⟩
  · intro H
    rw [hmap NewTestClient H]
    rfl
  · intro a2 w2
    rw [call_eq op a2 (call op a m w).client, call_eq op a2 m, hslot op]
    cases activeSlot op m <;> exact ⟨rfl, rfl⟩

theorem setSlot_comm {op1 op2 : Op} (h : op1 ≠ op2) (f : Option (Callback T op1))
    (g : Option (Callback T op2)) (mc : mockedClient T) :
    setSlot op2 g (setSlot op1 f mc) = setSlot op1 f (setSlot op2 g mc) := by
  cases op1 <;> cases op2 <;> first | rfl | exact absurd rfl h

theorem mockSetOf_update_ne {t H : Handle} (h : H ≠ t) (f : Handle → Option (mockedClient T))
    (mc : mockedClient T) (c c2 : Handle) :
    mockSetOf H { mocks := Function.update f t (some mc), currentTest := c } =
      mockSetOf H { mocks := f, currentTest := c2 } := by
  simp [mockSetOf, Function.update_noteq h]

/-- C16: registrations for distinct (handle, operation) pairs commute on the
stored callbacks.  For `(H1, Op1) ≠ (H2, Op2)` both orders of
`Mock<Op1>(H1, f)` and `Mock<Op2>(H2, g)` succeed and yield the same map; the
marker is the handle of the call that came last; so for `H1 = H2` the two
registries are equal, and for `H1 ≠ H2` they differ in the marker only. -/
theorem C16_registrations_commute (op1 op2 : Op) (H1 H2 : Handle)
    (f : Option (Callback T op1)) (g : Option (Callback T op2)) (m : testClient T)
    (h : (H1, op1) ≠ (H2, op2)) :
    ∃ m12 m21, (mock op1 H1 f m).bind (mock op2 H2 g) = some m12 ∧
      (mock op2 H2 g m).bind (mock op1 H1 f) = some m21 ∧
      m12.mocks = m21.mocks ∧ m12.currentTest = H2 ∧ m21.currentTest = H1 ∧
      ((H1 = H2 ∧ m12 = m21) ∨ (H1 ≠ H2 ∧ m12.currentTest ≠ m21.currentTest)) := by
  rw [mock_eq op1 H1 f m, mock_eq op2 H2 g m, Option.some_bind, Option.some_bind,
    mock_eq, mock_eq]
  refine ⟨_, _, rfl, rfl, ?_⟩
  by_cases e : H1 = H2
  · subst e
    have hop : op1 ≠ op2 := fun c => h (by rw [c])
    have hm : Function.update
          (Function.update m.mocks H1 (some (setSlot op1 f (mockSetOf H1 m)))) H1
          (some (setSlot op2 g (mockSetOf H1
            { mocks := Function.update m.mocks H1 (some (setSlot op1 f (mockSetOf H1 m))),
              currentTest := H1 }))) =
        Function.update
          (Function.update m.mocks H1 (some (setSlot op2 g (mockSetOf H1 m)))) H1
          (some (setSlot op1 f (mockSetOf H1
            { mocks := Function.update m.mocks H1 (some (setSlot op2 g (mockSetOf H1 m))),
              currentTest := H1 }))) := by
      rw [mockSetOf_update_same, mockSetOf_update_same, Function.update_idem,
        Function.update_idem, setSlot_comm hop]
    exact ⟨hm, rfl, rfl, Or.inl ⟨rfl, by rw [hm]⟩⟩
  · have e2 : H2 ≠ H1 := Ne.symm e
    have hm : Function.update
          (Function.update m.mocks H1 (some (setSlot op1 f (mockSetOf H1 m)))) H2
          (some (setSlot op2 g (mockSetOf H2
            { mocks := Function.update m.mocks H1 (some (setSlot op1 f (mockSetOf H1 m))),
              currentTest := H1 }))) =
        Function.update
          (Function.update m.mocks H2 (some (setSlot op2 g (mockSetOf H2 m)))) H1
          (some (setSlot op1 f (mockSetOf H1
            { mocks := Function.update m.mocks H2 (some (setSlot op2 g (mockSetOf H2 m))),
              currentTest := H2 }))) := by
      rw [mockSetOf_update_ne e2 _ _ H1 m.currentTest,
        mockSetOf_update_ne e _ _ H2 m.currentTest, Function.update_comm e]
    exact ⟨hm, rfl, rfl, Or.inr ⟨e, e2⟩⟩

/-- Witness of C16: on `registryOfTwo`, `MockPing` under handle 1 and `MockPing`
under handle 2 commute on the map. -/
theorem C16_registrations_commute_witness :
    ((some 1 : Handle), Op.ping) ≠ (some 2, Op.ping) ∧
    ∃ m12 m21,
      (mock Op.ping (some 1) (some pingOne) registryOfTwo).bind
        (mock Op.ping (some 2) (some pingTwo)) = some m12 ∧
      (mock Op.ping (some 2) (some pingTwo) registryOfTwo).bind
        (mock Op.ping (some 1) (some pingOne)) = some m21 ∧
      m12.mocks = m21.mocks ∧ m12.currentTest = some 2 ∧ m21.currentTest = some 1 ∧
      (((some 1 : Handle) = some 2 ∧ m12 = m21) ∨
        ((some 1 : Handle) ≠ some 2 ∧ m12.currentTest ≠ m21.currentTest)) :=
  ⟨by decide,
    C16_registrations_commute Op.ping Op.ping (some 1) (some 2) (some pingOne) (some pingTwo)
      registryOfTwo (by decide)⟩

theorem lastHandle_cons (r : Registration T) (rest : List (Registration T)) :
    lastHandle (r :: rest) = match rest with
      | [] => r.handle
      | _ :: _ => lastHandle rest := by
  cases rest with
  | nil => rfl
  | cons r2 rest2 => simp [lastHandle, List.getLast?_cons_cons]

theorem bind_slot_eq_slot_mockSetOf (op : Op) (H : Handle) (m : testClient T) :
    (m.mocks H).bind (slot op) = slot op (mockSetOf H m) := by
  unfold mockSetOf
  cases m.mocks H <;> simp [slot_empty]

theorem slot_after_registration (r : Registration T) (m : testClient T) (op : Op)
    (H : Handle) :
    (Function.update m.mocks r.handle
        (some (setSlot r.op r.impl (mockSetOf r.handle m))) H).bind (slot op) =
      match r.registers op H with
      | some impl => impl
      | none => (m.mocks H).bind (slot op) := by
  obtain ⟨op0, t, impl⟩ := r
  simp only [Registration.registers]
  by_cases hH : t = H
  · subst hH
    by_cases hop : op0 = op
    · subst hop
      simp [slot_setSlot_same]
    · have hop2 : op ≠ op0 := Ne.symm hop
      simp [hop, slot_setSlot_ne hop2, bind_slot_eq_slot_mockSetOf]
  · simp [hH, Function.update_noteq (Ne.symm hH)]

theorem run_registrations (regs : List (Registration T)) (w : T.World) :
    ∀ m : testClient T, ∃ m1, run (regs.map Registration.toAction) (m, w) = some (m1, w) ∧
      (m1.currentTest = match regs with
        | [] => m.currentTest
        | _ :: _ => lastHandle regs) ∧
      ∀ (op : Op) (H : Handle), (m1.mocks H).bind (slot op) =
        match lastRegistered op H regs with
        | some impl => impl
        | none => (m.mocks H).bind (slot op) := by
  induction regs with
  | nil => intro m; exact ⟨m, rfl, rfl, fun _ _ => rfl⟩
  | cons r rest ih =>
    intro m
    obtain ⟨m1, e1, hc, hs⟩ := ih
      { mocks := Function.update m.mocks r.handle
          (some (setSlot r.op r.impl (mockSetOf r.handle m))),
        currentTest := r.handle }
    refine ⟨m1, ?_, ?_, ?_⟩
    · simp only [List.map_cons, run, Registration.toAction, Action.apply, mock_eq,
        Option.map_some', Option.some_bind]
      exact e1
    · rw [hc, lastHandle_cons]
    · intro op H
      rw [hs op H, slot_after_registration]
      simp only [lastRegistered]
      cases lastRegistered op H rest <;> rfl

/-- C13: trace characterisation.  Every finite sequence of `Mock<Op>(handle, fn)`
calls on the registry of `NewTestClient` succeeds without invoking anything
(the world is untouched), and leaves the handle `H` of its last call (the nil
handle for the empty sequence) as the active one.  A contract operation `Op`
called afterwards with arguments `a` returns, and leaves the world as,
`traceResult` says: the result of `fn` on `a` when the sequence has a
`Mock<Op>(H, ·)` call and the last such call registered a non-nil `fn`, and
otherwise the default of `Op` with the world untouched.  Callbacks registered
under handles other than `H` do not enter the result. -/
theorem C13_trace_characterisation (regs : List (Registration T)) (op : Op)
    (a : Op.Args T op) (w : T.World) :
    ∃ m, run (regs.map Registration.toAction) (NewTestClient, w) = some (m, w) ∧
      m.currentTest = lastHandle regs ∧
      (call op a m w).ret = (traceResult regs op a w).1 ∧
      (call op a m w).world = (traceResult regs op a w).2 := by
  obtain ⟨m, e, hc, hs⟩ := run_registrations regs w NewTestClient
  have hc2 : m.currentTest = lastHandle regs := by
    rw [hc]; cases regs <;> rfl
  have ha : activeSlot op m =
      match lastRegistered op (lastHandle regs) regs with
      | some impl => impl
      | none => none := by
    unfold activeSlot
    rw [hc2, hs op (lastHandle regs)]
    cases lastRegistered op (lastHandle regs) regs <;> rfl
  refine ⟨m, e, hc2, ?_⟩
  rw [call_eq, ha]
  unfold traceResult
  cases h : lastRegistered op (lastHandle regs) regs with
  | none => exact ⟨rfl, rfl⟩
  | some impl =>
    cases impl with
    | none => exact ⟨rfl, rfl⟩
    | some fn => exact ⟨rfl, rfl⟩

end client
